import Mathlib

/-!
Verification of the routrace-data highway discovery and grouping core.

The Python sources are embedded shallowly:
  - strings are lists of characters so that all text operations compute;
  - Python floats are modelled as exact rationals;
  - Python dicts keyed by strings are association lists in insertion order;
  - Python sets of way ids are finite sets of integers;
  - fallible Python calls return an Except value.

Functions group_ways_by_ref, should_split_by_ref and is_national_route_ref
are imported by the tests from the main module but are defined nowhere in
the scripts; those are modelled from the specification, which their doc
comments state explicitly.
-/

namespace Routrace

/-- Decides whether pat occurs as a contiguous substring of a proper tail. -/
def isSubstr (pat : List Char) : List Char → Bool
  | [] => false
  | c :: rest => pat.isPrefixOf (c :: rest) || isSubstr pat rest

/-- Python `pat in s` substring containment on character lists. -/
def containsSub (s pat : List Char) : Bool :=
  pat.isPrefixOf s || isSubstr pat s

/-- Python str.strip: remove leading and trailing whitespace. -/
def trimChars (cs : List Char) : List Char :=
  ((cs.dropWhile Char.isWhitespace).reverse.dropWhile Char.isWhitespace).reverse

/-- Lexicographic comparison of character lists, as Python compares str. -/
def leChars : List Char → List Char → Bool
  | [], _ => true
  | _ :: _, [] => false
  | a :: as, b :: bs => if a < b then true else if b < a then false else leChars as bs

/-- Insert into a sorted list, keeping earlier elements on ties. -/
def insertSorted (le : α → α → Bool) (x : α) : List α → List α
  | [] => [x]
  | y :: ys => if le x y then x :: y :: ys else y :: insertSorted le x ys

/-- Insertion sort used to model Python sorted on dict items. -/
def sortByLe (le : α → α → Bool) : List α → List α
  | [] => []
  | x :: xs => insertSorted le x (sortByLe le xs)

/-! ### osm_parser.py: name patterns and base-name extraction -/

/-- osm_parser.HIGHWAY_PATTERNS: substrings recognising a highway name. -/
def HIGHWAY_PATTERNS : List (List Char) :=
  ["高速".data, "自動車道".data, "京葉道路".data]

/-- osm_parser.EXCLUDE_PATTERNS: substrings excluding ramps, exits and the like. -/
def EXCLUDE_PATTERNS : List (List Char) :=
  ["高架橋".data, "入口".data, "出口".data, "新設工事".data, "高架路".data, "連絡道路".data]

/-- The compound-route marker rejected by the normalizer. -/
def COMPOUND_MARKER : List Char := "線-".data

/-- Truncation at the first half-width or full-width opening parenthesis.
Models re.sub of the pattern removing a parenthesis and everything after it,
for names without newline characters. -/
def stripParen (cs : List Char) : List Char :=
  cs.takeWhile (fun c => c ≠ '（' && c ≠ '(')

/-- The eight directional suffix tokens of the normalizer regex. -/
def DIRECTION_SUFFIXES : List (List Char) :=
  ["上り".data, "下り".data, "内回り".data, "外回り".data,
   "東行き".data, "西行き".data, "北行き".data, "南行き".data]

/-- Removal of a single trailing directional token, if one is present.
No token of the list is a suffix of another, so at most one can match
and the regex substitution removes exactly that suffix occurrence. -/
def stripDirection (cs : List Char) : List Char :=
  match DIRECTION_SUFFIXES.find? (fun suf => suf.isSuffixOf cs) with
  | some suf => cs.take (cs.length - suf.length)
  | none => cs

/-- osm_parser.HighwayDiscoverer._extract_base_name. -/
def extract_base_name (name : List Char) : Option (List Char) :=
  if EXCLUDE_PATTERNS.any (fun pat => containsSub name pat) then none
  else if containsSub name COMPOUND_MARKER then none
  else if ! HIGHWAY_PATTERNS.any (fun pat => containsSub name pat) then none
  else
    let base1 := stripParen name
    let base2 := stripDirection base1
    let base3 := trimChars base2
    if base3 = [] then none else some base3

/-! ### main.py: fixed tables and urban-group detection -/

/-- main.URBAN_EXPRESSWAY_PREFIXES. -/
def URBAN_EXPRESSWAY_PREFIXES : List (List Char) :=
  ["首都高速".data, "名古屋高速".data, "阪神高速".data,
   "広島高速".data, "北九州高速".data, "福岡高速".data]

/-- main.URBAN_EXPRESSWAY_ALIASES, in insertion order. -/
def URBAN_EXPRESSWAY_ALIASES : List (List Char × List Char) :=
  [("北九州都市高速".data, "北九州高速".data),
   ("福岡都市高速".data, "福岡高速".data),
   ("東京高速道路".data, "首都高速".data)]

/-- main.CORE_HIGHWAYS: core highway name to corridor label, in insertion order. -/
def CORE_HIGHWAYS : List (List Char × List Char) :=
  [("東名高速道路".data, "東名".data),
   ("名神高速道路".data, "名神".data),
   ("中国自動車道".data, "中国".data),
   ("高松自動車道".data, "四国".data),
   ("九州自動車道".data, "九州".data),
   ("京葉道路".data, "千葉".data),
   ("北陸自動車道".data, "北陸".data),
   ("関越自動車道".data, "関越".data),
   ("東北自動車道".data, "東北".data),
   ("道央自動車道".data, "北海道".data)]

/-- main.TOKYO_STATION, the fixed reference coordinate. -/
def TOKYO_STATION : ℚ × ℚ := (139.7671, 35.6812)

/-- main.detect_group: urban expressway group of a highway name, if any. -/
def detect_group (name : List Char) : Option (List Char) :=
  match URBAN_EXPRESSWAY_PREFIXES.find? (fun pre => pre.isPrefixOf name) with
  | some pre => some pre
  | none =>
    match URBAN_EXPRESSWAY_ALIASES.find? (fun al => al.1.isPrefixOf name) with
    | some al => some al.2
    | none =>
      match URBAN_EXPRESSWAY_PREFIXES.find? (fun pre => (pre ++ "道路".data).isPrefixOf name) with
      | some pre => some pre
      | none =>
        if "名古屋".data.isPrefixOf name then some "名古屋高速".data else none

/-! ### main.py: geometry primitives over exact rationals -/

/-- A longitude-latitude coordinate pair. -/
abbrev Point := ℚ × ℚ

/-- A pair of endpoints. -/
abbrev Seg := Point × Point

/-- main.distance_squared. -/
def distance_squared (p1 p2 : Point) : ℚ :=
  (p1.1 - p2.1) ^ 2 + (p1.2 - p2.2) ^ 2

/-- Loop state of get_extent_segment.  The initial Python value
float inf for min_dist is modelled as none. -/
structure ExtentState where
  min_dist : Option ℚ
  max_dist : ℚ
  nearest : Point
  farthest : Point
deriving Repr

/-- One iteration of the loop of get_extent_segment. -/
def extent_step (center : Point) (st : ExtentState) (coord : Point) : ExtentState :=
  let dist := distance_squared coord center
  let st1 :=
    match st.min_dist with
    | none => { st with min_dist := some dist, nearest := coord }
    | some m => if dist < m then { st with min_dist := some dist, nearest := coord } else st
  if st1.max_dist < dist then { st1 with max_dist := dist, farthest := coord } else st1

/-- main.get_extent_segment: nearest and farthest coordinate relative to center. -/
def get_extent_segment (coords : List Point) (center : Point) : Option Seg :=
  match coords with
  | [] => none
  | c0 :: _ =>
    let st := coords.foldl (extent_step center) ⟨none, 0, c0, c0⟩
    some (st.nearest, st.farthest)

/-- main.cross_product: doubled signed area of the triangle o a b. -/
def cross_product (o a b : Point) : ℚ :=
  (a.1 - o.1) * (b.2 - o.2) - (a.2 - o.2) * (b.1 - o.1)

/-- main.segments_intersect: strict proper-crossing test. -/
def segments_intersect (seg1 seg2 : Seg) : Bool :=
  let p1 := seg1.1
  let p2 := seg1.2
  let p3 := seg2.1
  let p4 := seg2.2
  let d1 := cross_product p3 p4 p1
  let d2 := cross_product p3 p4 p2
  let d3 := cross_product p1 p2 p3
  let d4 := cross_product p1 p2 p4
  ((d1 > 0 && d2 < 0) || (d1 < 0 && d2 > 0)) &&
  ((d3 > 0 && d4 < 0) || (d3 < 0 && d4 > 0))

/-- main.point_to_segment_distance_squared. -/
def point_to_segment_distance_squared (point : Point) (seg : Seg) : ℚ :=
  let p1 := seg.1
  let p2 := seg.2
  let dx := p2.1 - p1.1
  let dy := p2.2 - p1.2
  if dx = 0 ∧ dy = 0 then distance_squared point p1
  else
    let t := max 0 (min 1 (((point.1 - p1.1) * dx + (point.2 - p1.2) * dy) / (dx * dx + dy * dy)))
    distance_squared point (p1.1 + t * dx, p1.2 + t * dy)

/-- main.segment_to_segment_distance, kept at squared scale.  The Python
function returns the square root of this value; the square root is
strictly increasing on nonnegative numbers, so every comparison made on
distances in the sources is equivalent to the same comparison made here.
The four squared endpoint distances are minimised left to right, as the
Python builtin min does on the four-element list. -/
def segment_to_segment_distance_sq (seg1 seg2 : Seg) : ℚ :=
  if segments_intersect seg1 seg2 then 0
  else
    min (min (min (point_to_segment_distance_squared seg1.1 seg2)
                  (point_to_segment_distance_squared seg1.2 seg2))
             (point_to_segment_distance_squared seg2.1 seg1))
        (point_to_segment_distance_squared seg2.2 seg1)

/-- Comparison of a distance against the running minimum, where no stored
value models the initial float infinity. -/
def oltB (d : ℚ) : Option ℚ → Bool
  | none => true
  | some m => decide (d < m)

/-- Loop of main.determine_general_group over the core-highway table.
The running minimum starts at float inf, modelled as none. -/
def dg_loop (hseg : Seg) (core_segments : List (List Char × Seg)) :
    List (List Char × List Char) → Option ℚ × List Char → Option ℚ × List Char
  | [], st => st
  | ch :: rest, st =>
    match List.lookup ch.1 core_segments with
    | none => dg_loop hseg core_segments rest st
    | some cseg =>
      let d := segment_to_segment_distance_sq hseg cseg
      dg_loop hseg core_segments rest (if oltB d st.1 then (some d, ch.2) else st)

/-- main.determine_general_group: corridor label of the nearest core highway. -/
def determine_general_group (hseg : Seg) (core_segments : List (List Char × Seg)) : List Char :=
  (dg_loop hseg core_segments CORE_HIGHWAYS (none, "東名".data)).2

/-- Distances of the available core highways, in table order: for each
core highway whose segment is present, its corridor label paired with the
squared segment distance to the target.  Used to state what the loop picks. -/
def coreDists (hseg : Seg) (core_segments : List (List Char × Seg)) : List (List Char × ℚ) :=
  CORE_HIGHWAYS.filterMap (fun ch =>
    (List.lookup ch.1 core_segments).map
      (fun cseg => (ch.2, segment_to_segment_distance_sq hseg cseg)))

/-! ### osm_parser.py: relation collection (HighwayDiscoverer) -/

/-- Metadata stored per base name by the discoverer. -/
structure RelInfo where
  name : List Char
  name_en : List Char
  ref : List Char
deriving Repr, DecidableEq

/-- State of HighwayDiscoverer: way ids and metadata per base name,
both in first-seen order. -/
structure DiscState where
  way_ids_by_name : List (List Char × Finset ℤ)
  highway_info : List (List Char × RelInfo)
deriving DecidableEq

/-- An OSM relation record: tags and typed members with numeric ids. -/
structure Relation where
  tags : List (List Char × List Char)
  members : List (List Char × ℤ)
deriving Repr

/-- Python tags.get with default empty string. -/
def tagGet (tags : List (List Char × List Char)) (key : List Char) : List Char :=
  (List.lookup key tags).getD []

/-- Update the first entry of an association list holding the given key. -/
def updateA (key : α) (f : β → β) [BEq α] : List (α × β) → List (α × β)
  | [] => []
  | (k, v) :: rest => if k == key then (k, f v) :: rest else (k, v) :: updateA key f rest

/-- Way ids of the w-typed members of a relation, added into a set. -/
def addMembers (members : List (List Char × ℤ)) (s : Finset ℤ) : Finset ℤ :=
  members.foldl (fun acc m => if m.1 = "w".data then insert m.2 acc else acc) s

/-- The early-return guards of HighwayDiscoverer.relation: a relation is
processed only when tagged route=road with a nonempty name whose base name
extraction succeeds; the extracted base name is returned. -/
def relation_qualifies (r : Relation) : Option (List Char) :=
  if tagGet r.tags "route".data ≠ "road".data then none
  else
    let name := tagGet r.tags "name".data
    if name = [] then none
    else extract_base_name name

/-- The metadata fill of HighwayDiscoverer.relation: the English name and
ref are set from the relation tags only while still blank. -/
def updateInfo (en ref : List Char) (info : RelInfo) : RelInfo :=
  let info1 :=
    if info.name_en = [] ∧ en ≠ [] then { info with name_en := en } else info
  if info1.ref = [] ∧ ref ≠ [] then { info1 with ref := ref } else info1

/-- The first-sight initialisation of HighwayDiscoverer.relation: a base
name not yet collected gets an empty way-id set and its initial metadata
appended. -/
def init_base (st : DiscState) (r : Relation) (base_name : List Char) : DiscState :=
  if (List.lookup base_name st.way_ids_by_name).isSome then st
  else
    { way_ids_by_name := st.way_ids_by_name ++ [(base_name, ∅)],
      highway_info := st.highway_info ++
        [(base_name, { name := base_name,
                       name_en := tagGet r.tags "name:en".data,
                       ref := tagGet r.tags "ref".data })] }

/-- The state mutation of HighwayDiscoverer.relation for a qualifying
relation: initialise the base name on first sight, union in the w-typed
member ids, and fill blank metadata. -/
def relation_apply (st : DiscState) (r : Relation) (base_name : List Char) : DiscState :=
  { way_ids_by_name :=
      updateA base_name (addMembers r.members) (init_base st r base_name).way_ids_by_name,
    highway_info :=
      (updateA base_name
        (updateInfo (tagGet r.tags "name:en".data) (tagGet r.tags "ref".data))
        (init_base st r base_name).highway_info) }

/-- osm_parser.HighwayDiscoverer.relation: process one relation record. -/
def relation_step (st : DiscState) (r : Relation) : DiscState :=
  match relation_qualifies r with
  | none => st
  | some base_name => relation_apply st r base_name

/-- One discovered highway record, as emitted by discover_highways. -/
structure HighwayInfoRec where
  name : List Char
  name_en : List Char
  ref : List Char
  way_count : ℕ
deriving Repr, DecidableEq

/-- osm_parser.discover_highways, conversion step: the collected metadata
sorted by base name, each with its way count. -/
def discover_highways_core (st : DiscState) : List HighwayInfoRec :=
  (sortByLe (fun a b => leChars a.1 b.1) st.highway_info).map (fun p =>
    { name := p.2.name,
      name_en := p.2.name_en,
      ref := p.2.ref,
      way_count := ((List.lookup p.1 st.way_ids_by_name).getD ∅).card })

/-! ### highway.py and main.py: the per-highway extraction pipeline -/

/-- A way record with id, tags and coordinates. -/
structure Way where
  id : ℤ
  tags : List (List Char × List Char)
  coordinates : List Point

/-- A GeoJSON LineString feature as built by ways_to_geojson. -/
structure Feature where
  props_name : List Char
  props_ref : List Char
  props_highway : List Char
  coordinates : List Point

/-- A GeoJSON feature collection, reduced to its feature list. -/
abbrev GeoJSON := List Feature

/-- Python runtime errors surfaced by the pipeline. -/
inductive PyErr where
  | typeError : List Char → PyErr
  | nameError : List Char → PyErr
deriving Repr, DecidableEq

/-- Subscripting a Python list with a string key raises TypeError. -/
def listStrSubscript (xs : List α) (key : List Char) : Except PyErr (List Char) :=
  Except.error (PyErr.typeError "list indices must be integers or slices, not str".data)

/-- highway.extract_highway, called as it is in generate_highways, where the
arguments are passed as (highway_info, ways): the parameter all_ways is bound
to the discovery record and highway_config to the list of ways.  Its first
statement subscripts that list with the string key name, raising TypeError.
Were the subscripts to succeed, the function would call filter_by_name, which
the osm_parser module does not define, so no success value exists at all. -/
def extract_highway (all_ways : HighwayInfoRec) (highway_config : List Way) :
    Except PyErr GeoJSON := do
  let _name ← listStrSubscript highway_config "name".data
  let _highway_id ← listStrSubscript highway_config "id".data
  let _query_name ← listStrSubscript highway_config "query_name".data
  Except.error (PyErr.nameError "filter_by_name is not defined in osm_parser".data)

/-- main.get_all_coordinates over the reduced GeoJSON model. -/
def get_all_coordinates (geojson : GeoJSON) : List Point :=
  geojson.foldl (fun acc f => acc ++ f.coordinates) []

/-- osm_parser.get_ways_for_highway.  Python iterates the id set in
unspecified set order; the model pins ascending id order. -/
def get_ways_for_highway (ways_by_id : List (ℤ × Way)) (way_ids : Finset ℤ) : List Way :=
  (way_ids.sort (· ≤ ·)).filterMap (fun wid => List.lookup wid ways_by_id)

/-- An entry of the generated highways index. -/
structure IndexEntry where
  id : List Char
  name : List Char
  nameEn : List Char
  ref : List Char
  refDisplay : List Char
deriving Repr, DecidableEq

/-- First semicolon-separated component of a ref, empty ref giving empty. -/
def refDisplayOf (ref : List Char) : List Char :=
  if ref = [] then [] else ref.takeWhile (fun c => c ≠ ';')

/-- The index entry built for one successfully extracted highway. -/
def mkEntry (info : HighwayInfoRec) : IndexEntry :=
  { id := info.name, name := info.name, nameEn := info.name_en,
    ref := info.ref, refDisplay := refDisplayOf info.ref }

/-- The per-highway loop of main.generate_highways: for each target, look up
its way ids, fetch the ways, call extract_highway, and on success with
nonempty coordinates save the file and append an index entry; any exception
is caught and the highway is skipped.  Returns the accumulated index entries
and the names of the saved files. -/
def generate_highways_core (targets : List HighwayInfoRec)
    (way_ids_by_name : List (List Char × Finset ℤ))
    (ways_by_id : List (ℤ × Way)) : List IndexEntry × List (List Char) :=
  targets.foldl (fun acc info =>
    let name := info.name
    let way_ids := (List.lookup name way_ids_by_name).getD ∅
    let ways := get_ways_for_highway ways_by_id way_ids
    match extract_highway info ways with
    | Except.error _ => acc
    | Except.ok geojson =>
      let coords := get_all_coordinates geojson
      if coords = [] then acc
      else (acc.1 ++ [mkEntry info], acc.2 ++ [name])) ([], [])

/-! ### Ref splitter, modelled from the specification.

The tests in test_main.py import group_ways_by_ref, should_split_by_ref and
is_national_route_ref from the main module, but no script defines them; the
definitions below follow section 4.3 of the specification. -/

/-- Modelled from the spec: is_national_route_ref is missing from the
scripts.  A ref of decimal digits only is a national-route reference; refs
containing a letter are expressway route codes; an empty ref is neither. -/
def is_national_route_ref (ref : List Char) : Bool :=
  ref ≠ [] && ref.all Char.isDigit

/-- Effective ref of a way: first semicolon-separated component of its ref
tag, the empty string when the tag is absent or blank. -/
def wayRef (w : Way) : List Char :=
  (tagGet w.tags "ref".data).takeWhile (fun c => c ≠ ';')

/-- Append a way to the bucket of its key, creating the bucket at the end
when the key is new, as a Python dict of lists would. -/
def addToBucket (buckets : List (List Char × List Way)) (key : List Char) (w : Way) :
    List (List Char × List Way) :=
  match buckets with
  | [] => [(key, [w])]
  | (k, ws) :: rest =>
    if k = key then (k, ws ++ [w]) :: rest else (k, ws) :: addToBucket rest key w

/-- Partition of ways into buckets keyed by effective ref, in first-seen
key order; blank-ref ways land in the empty-string bucket. -/
def bucketize (ways : List Way) : List (List Char × List Way) :=
  ways.foldl (fun buckets w => addToBucket buckets (wayRef w) w) []

/-- All coordinates present in a bucket. -/
def coordsOfBucket (ws : List Way) : List Point :=
  ws.foldl (fun acc w => acc ++ w.coordinates) []

/-- Running minimum over rationals starting from no value. -/
def optMin (acc : Option ℚ) (d : ℚ) : Option ℚ :=
  match acc with
  | none => some d
  | some m => if d < m then some d else some m

/-- Minimum squared point-to-point distance over all pairs, none when
either side has no points. -/
def minPairDistSq (ps qs : List Point) : Option ℚ :=
  ps.foldl (fun acc p => qs.foldl (fun acc2 q => optMin acc2 (distance_squared p q)) acc) none

/-- Key of the bucket nearest to the way by minimum point-to-point distance
over the coordinates already in each bucket; earlier buckets win ties. -/
def nearest_bucket_key (w : Way) (buckets : List (List Char × List Way)) :
    Option (List Char) :=
  (buckets.foldl (fun best b =>
    match minPairDistSq w.coordinates (coordsOfBucket b.2) with
    | none => best
    | some d =>
      match best with
      | none => some (b.1, d)
      | some bd => if d < bd.2 then some (b.1, d) else best) none).map Prod.fst

/-- Modelled from the spec: group_ways_by_ref is missing from the scripts.
Bucket the ways by effective ref, then merge each blank-ref way into its
nearest non-blank bucket, sequentially so that a merged way counts toward
the bucket coordinates seen by later blank-ref ways; when no non-blank
bucket exists all ways stay in the empty-string bucket. -/
def group_ways_by_ref (ways : List Way) : List (List Char × List Way) :=
  let buckets := bucketize ways
  let nonblank := buckets.filter (fun b => b.1 ≠ [])
  if nonblank.isEmpty then buckets
  else
    let blanks := (buckets.filter (fun b => b.1 = [])).foldl (fun acc b => acc ++ b.2) []
    blanks.foldl (fun acc w =>
      match nearest_bucket_key w acc with
      | some k => addToBucket acc k w
      | none => acc) nonblank

/-- Modelled from the spec: should_split_by_ref is missing from the scripts.
Count the distinct refs of the grouping that matter: the empty ref never
counts; for a highway whose display name detects as urban every other ref
counts; otherwise national-route refs are excluded.  Split when at least
two refs count. -/
def should_split_by_ref (grouped : List (List Char × List Way)) (display_name : List Char) :
    Bool :=
  let is_urban := (detect_group display_name).isSome
  let valid := (grouped.map Prod.fst).filter
    (fun r => r ≠ [] && (is_urban || ! is_national_route_ref r))
  decide (2 ≤ valid.length)

/-! ### Sample data used by the end-to-end claims -/

/-- A relation record shaped like the 首都高速1号上野線 route relation. -/
def sampleRelation : Relation :=
  { tags := [("route".data, "road".data), ("name".data, "首都高速1号上野線".data)],
    members := [("w".data, 1), ("w".data, 2)] }

/-- First sample way of the relation, with a valid coordinate sequence. -/
def sampleWay1 : Way :=
  { id := 1, tags := [("name".data, "首都高速1号上野線".data)],
    coordinates := [(139.77, 35.71), (139.78, 35.72)] }

/-- Second sample way of the relation, with a valid coordinate sequence. -/
def sampleWay2 : Way :=
  { id := 2, tags := [("name".data, "首都高速1号上野線".data)],
    coordinates := [(139.78, 35.72), (139.79, 35.73)] }

/-- Discoverer state after processing the sample relation. -/
def sampleState : DiscState := relation_step ⟨[], []⟩ sampleRelation

/-- A way carrying ref E19, matching the ref-splitter test data. -/
def wayE19 : Way :=
  { id := 10, tags := [("ref".data, "E19".data)], coordinates := [(0, 0), (1, 1)] }

/-- A way carrying ref E20, far from the E19 way. -/
def wayE20 : Way :=
  { id := 11, tags := [("ref".data, "E20".data)],
    coordinates := [(100, 100), (101, 101)] }

/-- A way with no ref tag, nearest to the E19 way. -/
def wayNoRef : Way :=
  { id := 12, tags := [], coordinates := [(0.5, 0.5), (1.5, 1.5)] }

/-- A way carrying the compound ref E4;E13. -/
def wayE4compound : Way :=
  { id := 13, tags := [("ref".data, "E4;E13".data)], coordinates := [(0, 0), (1, 1)] }

/-- A way carrying the plain ref E4. -/
def wayE4plain : Way :=
  { id := 14, tags := [("ref".data, "E4".data)], coordinates := [(1, 1), (2, 2)] }

/-- A single blank-ref way used for the fallback witness. -/
def waySoloBlank : Way :=
  { id := 15, tags := [], coordinates := [(3, 3), (4, 4)] }

/-!
## Theorems

General-purpose lemmas come first, then one theorem per claim with its
witness or counterexample where required.
-/

/-- A left fold with a step that never changes the accumulator is constant. -/
theorem foldl_fixed {α β : Type _} (f : β → α → β) (h : ∀ b a, f b a = b) :
    ∀ (l : List α) (b : β), l.foldl f b = b := by
  intro l
  induction l with
  | nil => intro b; rfl
  | cons a l ih => intro b; rw [List.foldl_cons, h]; exact ih b

/-- C2: for every discovery record and every way list, the call
extract_highway(highway_info, ways) made inside generate_highways raises an
exception; the per-highway handler catches it, so generate_highways saves no
highway file and the accumulated index entries stay empty. -/
theorem C2_generate_highways_always_empty :
    (∀ (info : HighwayInfoRec) (ways : List Way),
      ∃ e : PyErr, extract_highway info ways = Except.error e) ∧
    (∀ (targets : List HighwayInfoRec)
      (way_ids_by_name : List (List Char × Finset ℤ)) (ways_by_id : List (ℤ × Way)),
      generate_highways_core targets way_ids_by_name ways_by_id = ([], [])) := by
  constructor
  · intro info ways
    exact ⟨PyErr.typeError "list indices must be integers or slices, not str".data, rfl⟩
  · intro targets way_ids_by_name ways_by_id
    exact foldl_fixed _ (fun b a => rfl) targets ([], [])

/-- C1: on the sample relation tagged route=road and named 首都高速1号上野線
with two way members backed by ways with valid coordinates, discovery does
find the one highway, yet the pipeline emits no index entry and saves no
file, because extract_highway is called with its arguments swapped and its
helper filter_by_name does not exist; so the claimed single highway entity
grouped under 首都高速 is never produced, even though detect_group would
assign that group.  This exhibits the divergence of the code from the
end-to-end specification sentence. -/
theorem C1_pipeline_on_sample_relation :
    discover_highways_core sampleState =
      [{ name := "首都高速1号上野線".data, name_en := [], ref := [], way_count := 2 }] ∧
    detect_group "首都高速1号上野線".data = some "首都高速".data ∧
    generate_highways_core (discover_highways_core sampleState)
      sampleState.way_ids_by_name [(1, sampleWay1), (2, sampleWay2)] = ([], []) := by
  refine ⟨by decide, by decide, ?_⟩
  exact foldl_fixed _ (fun b a => rfl) _ ([], [])

/-- C9: segments_intersect holds exactly when both pairs of orientation
cross-products have strictly opposite signs, touching endpoints and
collinear overlap are not intersections, and the squared segment distance
is 0 on intersection and otherwise the minimum of the four squared
endpoint-to-opposite-segment distances; two parallel horizontal segments
one unit apart are at squared distance 1, so at distance exactly 1. -/
theorem C9_segments_intersect_and_distance :
    (∀ seg1 seg2 : Seg, segments_intersect seg1 seg2 = true ↔
      (cross_product seg2.1 seg2.2 seg1.1 * cross_product seg2.1 seg2.2 seg1.2 < 0 ∧
       cross_product seg1.1 seg1.2 seg2.1 * cross_product seg1.1 seg1.2 seg2.2 < 0)) ∧
    segments_intersect ((0, 0), (2, 2)) ((0, 2), (2, 0)) = true ∧
    segments_intersect ((0, 0), (1, 1)) ((1, 1), (2, 0)) = false ∧
    segments_intersect ((0, 0), (2, 0)) ((1, 0), (3, 0)) = false ∧
    segments_intersect ((0, 0), (2, 0)) ((0, 1), (2, 1)) = false ∧
    (∀ seg1 seg2 : Seg, segments_intersect seg1 seg2 = true →
      segment_to_segment_distance_sq seg1 seg2 = 0) ∧
    (∀ seg1 seg2 : Seg, segments_intersect seg1 seg2 = false →
      segment_to_segment_distance_sq seg1 seg2 =
        min (min (point_to_segment_distance_squared seg1.1 seg2)
                 (point_to_segment_distance_squared seg1.2 seg2))
            (min (point_to_segment_distance_squared seg2.1 seg1)
                 (point_to_segment_distance_squared seg2.2 seg1))) ∧
    segment_to_segment_distance_sq ((0, 0), (2, 0)) ((0, 1), (2, 1)) = 1 := by
  refine ⟨?_, ?_, ?_, ?_, ?_, ?_, ?_, ?_⟩
  · intro seg1 seg2
    simp only [segments_intersect, Bool.and_eq_true, Bool.or_eq_true, decide_eq_true_eq,
      gt_iff_lt]
    rw [mul_neg_iff, mul_neg_iff]
  · norm_num [segments_intersect, cross_product]
  · norm_num [segments_intersect, cross_product]
  · norm_num [segments_intersect, cross_product]
  · norm_num [segments_intersect, cross_product]
  · intro seg1 seg2 h
    simp [segment_to_segment_distance_sq, h]
  · intro seg1 seg2 h
    simp only [segment_to_segment_distance_sq, h, Bool.false_eq_true, if_false]
    rw [min_assoc]
  · norm_num [segment_to_segment_distance_sq, segments_intersect, cross_product,
      point_to_segment_distance_squared, distance_squared]

/-- C9 witness: the hypothesis-bearing parts applied at concrete segments:
the crossing pair is at squared distance 0 and the parallel unit-apart pair
realises the minimum of the four endpoint distances. -/
theorem C9_witness :
    segment_to_segment_distance_sq ((0, 0), (2, 2)) ((0, 2), (2, 0)) = 0 ∧
    segment_to_segment_distance_sq ((0, 0), (2, 0)) ((0, 1), (2, 1)) =
      min (min (point_to_segment_distance_squared ((0 : ℚ), (0 : ℚ)) ((0, 1), (2, 1)))
               (point_to_segment_distance_squared ((2 : ℚ), (0 : ℚ)) ((0, 1), (2, 1))))
          (min (point_to_segment_distance_squared ((0 : ℚ), (1 : ℚ)) ((0, 0), (2, 0)))
               (point_to_segment_distance_squared ((2 : ℚ), (1 : ℚ)) ((0, 0), (2, 0)))) := by
  obtain ⟨-, hcross, -, -, hpar, hzero, hmin, -⟩ := C9_segments_intersect_and_distance
  exact ⟨hzero _ _ hcross, hmin _ _ hpar⟩

/-- Squared euclidean distance is nonnegative. -/
theorem distance_squared_nonneg (p q : Point) : 0 ≤ distance_squared p q :=
  add_nonneg (sq_nonneg _) (sq_nonneg _)

/-- One extent step keeps the nearest point or replaces it by the scanned coordinate. -/
theorem extent_step_nearest (center : Point) (st : ExtentState) (c : Point) :
    (extent_step center st c).nearest = st.nearest ∨ (extent_step center st c).nearest = c := by
  unfold extent_step
  rcases hm : st.min_dist with _ | m <;> simp only [hm] <;> split_ifs <;> simp

/-- One extent step keeps the farthest point or replaces it by the scanned coordinate. -/
theorem extent_step_farthest (center : Point) (st : ExtentState) (c : Point) :
    (extent_step center st c).farthest = st.farthest ∨ (extent_step center st c).farthest = c := by
  unfold extent_step
  rcases hm : st.min_dist with _ | m <;> simp only [hm] <;> split_ifs <;> simp

/-- The stored minimum always equals the distance of the stored nearest point. -/
theorem extent_step_min_eq (center : Point) (st : ExtentState) (c : Point)
    (h : ∀ m, st.min_dist = some m → m = distance_squared st.nearest center) :
    ∀ m, (extent_step center st c).min_dist = some m →
      m = distance_squared (extent_step center st c).nearest center := by
  unfold extent_step
  rcases hm : st.min_dist with _ | m0 <;> simp only [hm] <;> split_ifs <;>
    simp_all

/-- After one step the stored minimum exists and bounds the scanned distance. -/
theorem extent_step_min_ub (center : Point) (st : ExtentState) (c : Point) :
    ∃ m, (extent_step center st c).min_dist = some m ∧ m ≤ distance_squared c center := by
  unfold extent_step
  rcases hm : st.min_dist with _ | m0 <;> simp only [hm] <;> split_ifs <;>
    simp_all <;> linarith

/-- One step only lowers a stored minimum. -/
theorem extent_step_min_mono (center : Point) (st : ExtentState) (c : Point)
    (m0 : ℚ) (h : st.min_dist = some m0) :
    ∃ m, (extent_step center st c).min_dist = some m ∧ m ≤ m0 := by
  unfold extent_step
  simp only [h]
  split_ifs <;> simp_all <;> linarith

/-- One step never lowers the stored maximum. -/
theorem extent_step_max_mono (center : Point) (st : ExtentState) (c : Point) :
    st.max_dist ≤ (extent_step center st c).max_dist := by
  unfold extent_step
  rcases hm : st.min_dist with _ | m0 <;> simp only [hm] <;> split_ifs <;>
    simp_all <;> linarith

/-- After one step the stored maximum bounds the scanned distance. -/
theorem extent_step_max_ub (center : Point) (st : ExtentState) (c : Point) :
    distance_squared c center ≤ (extent_step center st c).max_dist := by
  unfold extent_step
  rcases hm : st.min_dist with _ | m0 <;> simp only [hm] <;> split_ifs <;>
    simp_all <;> linarith

/-- The stored maximum stays below the distance of the stored farthest point. -/
theorem extent_step_max_far (center : Point) (st : ExtentState) (c : Point)
    (h : st.max_dist ≤ distance_squared st.farthest center) :
    (extent_step center st c).max_dist ≤
      distance_squared (extent_step center st c).farthest center := by
  unfold extent_step
  rcases hm : st.min_dist with _ | m0 <;> simp only [hm] <;> split_ifs <;> simp_all

/-- Over the whole loop the nearest point is the initial one or a scanned one. -/
theorem extent_foldl_nearest_mem (center : Point) :
    ∀ (l : List Point) (st : ExtentState),
      (l.foldl (extent_step center) st).nearest = st.nearest ∨
      (l.foldl (extent_step center) st).nearest ∈ l := by
  intro l
  induction l with
  | nil => intro st; exact Or.inl rfl
  | cons c l ih =>
    intro st
    rw [List.foldl_cons]
    rcases ih (extent_step center st c) with h | h
    · rcases extent_step_nearest center st c with h2 | h2
      · exact Or.inl (h.trans h2)
      · exact Or.inr (by rw [h, h2]; exact List.mem_cons_self c l)
    · exact Or.inr (List.mem_cons_of_mem c h)

/-- Over the whole loop the farthest point is the initial one or a scanned one. -/
theorem extent_foldl_farthest_mem (center : Point) :
    ∀ (l : List Point) (st : ExtentState),
      (l.foldl (extent_step center) st).farthest = st.farthest ∨
      (l.foldl (extent_step center) st).farthest ∈ l := by
  intro l
  induction l with
  | nil => intro st; exact Or.inl rfl
  | cons c l ih =>
    intro st
    rw [List.foldl_cons]
    rcases ih (extent_step center st c) with h | h
    · rcases extent_step_farthest center st c with h2 | h2
      · exact Or.inl (h.trans h2)
      · exact Or.inr (by rw [h, h2]; exact List.mem_cons_self c l)
    · exact Or.inr (List.mem_cons_of_mem c h)

/-- The loop preserves agreement of the stored minimum with the nearest point. -/
theorem extent_foldl_min_eq (center : Point) :
    ∀ (l : List Point) (st : ExtentState),
      (∀ m, st.min_dist = some m → m = distance_squared st.nearest center) →
      ∀ m, (l.foldl (extent_step center) st).min_dist = some m →
        m = distance_squared (l.foldl (extent_step center) st).nearest center := by
  intro l
  induction l with
  | nil => intro st h; exact h
  | cons c l ih =>
    intro st h
    rw [List.foldl_cons]
    exact ih _ (extent_step_min_eq center st c h)

/-- A stored minimum below a bound persists below that bound through the loop. -/
theorem extent_foldl_min_persist (center : Point) :
    ∀ (l : List Point) (st : ExtentState) (x : ℚ),
      (∃ m, st.min_dist = some m ∧ m ≤ x) →
      ∃ m, (l.foldl (extent_step center) st).min_dist = some m ∧ m ≤ x := by
  intro l
  induction l with
  | nil => intro st x h; exact h
  | cons c l ih =>
    intro st x h
    rw [List.foldl_cons]
    obtain ⟨m0, hm0, hle⟩ := h
    obtain ⟨m1, hm1, hle1⟩ := extent_step_min_mono center st c m0 hm0
    exact ih _ x ⟨m1, hm1, hle1.trans hle⟩

/-- After the loop the stored minimum bounds the distance of every scanned point. -/
theorem extent_foldl_min_ub (center : Point) :
    ∀ (l : List Point) (st : ExtentState) (r : Point), r ∈ l →
      ∃ m, (l.foldl (extent_step center) st).min_dist = some m ∧
        m ≤ distance_squared r center := by
  intro l
  induction l with
  | nil => intro st r hr; exact absurd hr (List.not_mem_nil r)
  | cons c l ih =>
    intro st r hr
    rw [List.foldl_cons]
    rcases List.mem_cons.mp hr with rfl | hr
    · exact extent_foldl_min_persist center l _ _ (extent_step_min_ub center st r)
    · exact ih _ r hr

/-- The stored maximum never decreases through the loop. -/
theorem extent_foldl_max_mono (center : Point) :
    ∀ (l : List Point) (st : ExtentState),
      st.max_dist ≤ (l.foldl (extent_step center) st).max_dist := by
  intro l
  induction l with
  | nil => intro st; exact le_refl _
  | cons c l ih =>
    intro st
    rw [List.foldl_cons]
    exact (extent_step_max_mono center st c).trans (ih _)

/-- After the loop the stored maximum bounds the distance of every scanned point. -/
theorem extent_foldl_max_ub (center : Point) :
    ∀ (l : List Point) (st : ExtentState) (r : Point), r ∈ l →
      distance_squared r center ≤ (l.foldl (extent_step center) st).max_dist := by
  intro l
  induction l with
  | nil => intro st r hr; exact absurd hr (List.not_mem_nil r)
  | cons c l ih =>
    intro st r hr
    rw [List.foldl_cons]
    rcases List.mem_cons.mp hr with rfl | hr
    · exact (extent_step_max_ub center st r).trans (extent_foldl_max_mono center l _)
    · exact ih _ r hr

/-- The loop preserves the bound of the maximum by the farthest distance. -/
theorem extent_foldl_max_far (center : Point) :
    ∀ (l : List Point) (st : ExtentState),
      st.max_dist ≤ distance_squared st.farthest center →
      (l.foldl (extent_step center) st).max_dist ≤
        distance_squared (l.foldl (extent_step center) st).farthest center := by
  intro l
  induction l with
  | nil => intro st h; exact h
  | cons c l ih =>
    intro st h
    rw [List.foldl_cons]
    exact ih _ (extent_step_max_far center st c h)

/-- Full characterisation of get_extent_segment on nonempty input: it yields
a pair of members of the list, the first at minimal and the second at
maximal squared distance from the center. -/
theorem get_extent_segment_char (center c0 : Point) (rest : List Point) :
    ∃ pq : Seg, get_extent_segment (c0 :: rest) center = some pq ∧
      pq.1 ∈ c0 :: rest ∧ pq.2 ∈ c0 :: rest ∧
      (∀ r ∈ c0 :: rest, distance_squared pq.1 center ≤ distance_squared r center) ∧
      (∀ r ∈ c0 :: rest, distance_squared r center ≤ distance_squared pq.2 center) := by
  refine ⟨(((c0 :: rest).foldl (extent_step center) ⟨none, 0, c0, c0⟩).nearest,
           ((c0 :: rest).foldl (extent_step center) ⟨none, 0, c0, c0⟩).farthest),
    rfl, ?_, ?_, ?_, ?_⟩
  · rcases extent_foldl_nearest_mem center (c0 :: rest) ⟨none, 0, c0, c0⟩ with h | h
    · rw [h]; exact List.mem_cons_self c0 rest
    · exact h
  · rcases extent_foldl_farthest_mem center (c0 :: rest) ⟨none, 0, c0, c0⟩ with h | h
    · rw [h]; exact List.mem_cons_self c0 rest
    · exact h
  · intro r hr
    obtain ⟨m, hm, hle⟩ := extent_foldl_min_ub center (c0 :: rest) ⟨none, 0, c0, c0⟩ r hr
    have heq := extent_foldl_min_eq center (c0 :: rest) ⟨none, 0, c0, c0⟩
      (by intro m hm0; cases hm0) m hm
    rw [← heq]
    exact hle
  · intro r hr
    have h1 := extent_foldl_max_ub center (c0 :: rest) ⟨none, 0, c0, c0⟩ r hr
    have h2 := extent_foldl_max_far center (c0 :: rest) ⟨none, 0, c0, c0⟩
      (distance_squared_nonneg c0 center)
    exact h1.trans h2

/-- C10: get_extent_segment returns none on the empty list, the same point
twice on a singleton, and in general a pair of a distance-minimising and a
distance-maximising coordinate; the pipeline calls it with the Tokyo Station
center (139.7671, 35.6812). -/
theorem C10_get_extent_segment_spec :
    (∀ center : Point, get_extent_segment [] center = none) ∧
    (∀ center p : Point, get_extent_segment [p] center = some (p, p)) ∧
    (∀ (center c0 : Point) (rest : List Point),
      ∃ pq : Seg, get_extent_segment (c0 :: rest) center = some pq ∧
        pq.1 ∈ c0 :: rest ∧ pq.2 ∈ c0 :: rest ∧
        (∀ r ∈ c0 :: rest, distance_squared pq.1 center ≤ distance_squared r center) ∧
        (∀ r ∈ c0 :: rest, distance_squared r center ≤ distance_squared pq.2 center)) ∧
    TOKYO_STATION = (139.7671, 35.6812) := by
  refine ⟨fun center => rfl, ?_, fun center c0 rest => get_extent_segment_char center c0 rest, rfl⟩
  intro center p
  obtain ⟨pq, he, h1, h2, -, -⟩ := get_extent_segment_char center p []
  obtain ⟨a, b⟩ := pq
  have hp1 : a = p := by simpa using h1
  have hp2 : b = p := by simpa using h2
  rw [hp1, hp2] at he
  exact he

/-- C10 witness: the characterisation applied to a concrete two-point list. -/
theorem C10_witness :
    ∃ pq : Seg, get_extent_segment [(0, 0), (3, 4)] (0, 0) = some pq ∧
      pq.1 ∈ [((0 : ℚ), (0 : ℚ)), (3, 4)] ∧ pq.2 ∈ [((0 : ℚ), (0 : ℚ)), (3, 4)] ∧
      (∀ r ∈ [((0 : ℚ), (0 : ℚ)), (3, 4)],
        distance_squared pq.1 (0, 0) ≤ distance_squared r (0, 0)) ∧
      (∀ r ∈ [((0 : ℚ), (0 : ℚ)), (3, 4)],
        distance_squared r (0, 0) ≤ distance_squared pq.2 (0, 0)) :=
  C10_get_extent_segment_spec.2.2.1 (0, 0) (0, 0) [(3, 4)]

/-- C5 counterexample: the fully parenthesised name （高速道路） contains a
highway-designation substring, no exclusion substring and no compound
marker, and its processed form is the empty string; the claim therefore
predicts the normalizer returns that processed (empty) name, but the code
returns absence. -/
theorem C5_counterexample_fully_parenthesized :
    (∀ pat ∈ EXCLUDE_PATTERNS, containsSub "（高速道路）".data pat = false) ∧
    containsSub "（高速道路）".data COMPOUND_MARKER = false ∧
    (∃ pat ∈ HIGHWAY_PATTERNS, containsSub "（高速道路）".data pat = true) ∧
    trimChars (stripDirection (stripParen "（高速道路）".data)) = [] ∧
    extract_base_name "（高速道路）".data = none := by
  decide

/-- C5, amended: the normalizer returns absence when the name contains an
exclusion substring, the compound marker 線- (even alongside an allow-list
substring), no highway-designation substring, or when the processed name is
empty; otherwise it returns the name with the parenthetical suffix and one
trailing directional token removed and whitespace trimmed.  Branch names
such as 名古屋第二環状自動車道支線 pass unchanged. -/
theorem C5_extract_base_name_spec :
    (∀ name : List Char, containsSub name COMPOUND_MARKER = true →
      extract_base_name name = none) ∧
    (∀ name : List Char, (∃ pat ∈ EXCLUDE_PATTERNS, containsSub name pat = true) →
      extract_base_name name = none) ∧
    (∀ name : List Char, (∀ pat ∈ HIGHWAY_PATTERNS, containsSub name pat = false) →
      extract_base_name name = none) ∧
    (∀ name : List Char,
      (∀ pat ∈ EXCLUDE_PATTERNS, containsSub name pat = false) →
      containsSub name COMPOUND_MARKER = false →
      (∃ pat ∈ HIGHWAY_PATTERNS, containsSub name pat = true) →
      extract_base_name name =
        (if trimChars (stripDirection (stripParen name)) = [] then none
         else some (trimChars (stripDirection (stripParen name))))) ∧
    extract_base_name "中央自動車道上り".data = some "中央自動車道".data ∧
    extract_base_name "東名高速道路（上り）".data = some "東名高速道路".data ∧
    extract_base_name "名古屋第二環状自動車道支線".data =
      some "名古屋第二環状自動車道支線".data := by
  refine ⟨?_, ?_, ?_, ?_, by decide, by decide, by decide⟩
  · intro name h
    unfold extract_base_name
    split_ifs with h1 h2 h3 <;> simp_all
  · intro name h
    have h1 : EXCLUDE_PATTERNS.any (fun pat => containsSub name pat) = true := by
      rcases h with ⟨pat, hmem, hc⟩
      exact List.any_eq_true.mpr ⟨pat, hmem, hc⟩
    unfold extract_base_name
    simp [h1]
  · intro name h
    unfold extract_base_name
    split_ifs with h1 h2 h3 <;> simp_all
  · intro name hex hcm hpat
    have h1 : EXCLUDE_PATTERNS.any (fun pat => containsSub name pat) = false := by
      rw [List.any_eq_false]
      intro pat hmem
      simp [hex pat hmem]
    have h3 : HIGHWAY_PATTERNS.any (fun pat => containsSub name pat) = true := by
      rcases hpat with ⟨pat, hmem, hc⟩
      exact List.any_eq_true.mpr ⟨pat, hmem, hc⟩
    unfold extract_base_name
    simp [h1, hcm, h3]

/-- C5 witness: the amended theorem applied at concrete names: a compound
route name is rejected even though it contains an allow-list substring, and
a name with an exclusion substring is rejected. -/
theorem C5_witness :
    extract_base_name "首都高速川口線-中央環状線".data = none ∧
    extract_base_name "名古屋高速道路小牧-大高線高架路".data = none := by
  constructor
  · exact C5_extract_base_name_spec.1 "首都高速川口線-中央環状線".data (by decide)
  · exact C5_extract_base_name_spec.2.1 "名古屋高速道路小牧-大高線高架路".data
      ⟨"高架路".data, by decide, by decide⟩

/-- If a prefixes n and neither of a, b prefixes the other, then b does not
prefix n. -/
theorem isPrefixOf_false_of_incomparable {a b n : List Char}
    (ha : a.isPrefixOf n = true) (hab : a.isPrefixOf b = false)
    (hba : b.isPrefixOf a = false) : b.isPrefixOf n = false := by
  by_contra hc
  rw [Bool.not_eq_false, List.isPrefixOf_iff_prefix] at hc
  rw [List.isPrefixOf_iff_prefix] at ha
  rcases List.prefix_or_prefix_of_prefix ha hc with h | h
  · rw [← List.isPrefixOf_iff_prefix] at h
    exact absurd h (by simp [hab])
  · rw [← List.isPrefixOf_iff_prefix] at h
    exact absurd h (by simp [hba])

/-- If b prefixes c and b does not prefix n, then c does not prefix n. -/
theorem isPrefixOf_false_of_extends {b c n : List Char}
    (hbc : b.isPrefixOf c = true) (h : b.isPrefixOf n = false) :
    c.isPrefixOf n = false := by
  by_contra hc
  rw [Bool.not_eq_false, List.isPrefixOf_iff_prefix] at hc
  rw [List.isPrefixOf_iff_prefix] at hbc
  have : b.isPrefixOf n = true := List.isPrefixOf_iff_prefix.mpr (hbc.trans hc)
  simp [this] at h

/-- A name starting with one of the six urban prefixes detects as that prefix. -/
theorem detect_group_from_urban (name pre : List Char)
    (hmem : pre ∈ URBAN_EXPRESSWAY_PREFIXES) (h : pre.isPrefixOf name = true) :
    detect_group name = some pre := by
  fin_cases hmem
  · simp [detect_group, URBAN_EXPRESSWAY_PREFIXES, List.find?, h]
  · have e1 : ("首都高速".data).isPrefixOf name = false :=
      isPrefixOf_false_of_incomparable h (by decide) (by decide)
    simp [detect_group, URBAN_EXPRESSWAY_PREFIXES, List.find?, h, e1]
  · have e1 : ("首都高速".data).isPrefixOf name = false :=
      isPrefixOf_false_of_incomparable h (by decide) (by decide)
    have e2 : ("名古屋高速".data).isPrefixOf name = false :=
      isPrefixOf_false_of_incomparable h (by decide) (by decide)
    simp [detect_group, URBAN_EXPRESSWAY_PREFIXES, List.find?, h, e1, e2]
  · have e1 : ("首都高速".data).isPrefixOf name = false :=
      isPrefixOf_false_of_incomparable h (by decide) (by decide)
    have e2 : ("名古屋高速".data).isPrefixOf name = false :=
      isPrefixOf_false_of_incomparable h (by decide) (by decide)
    have e3 : ("阪神高速".data).isPrefixOf name = false :=
      isPrefixOf_false_of_incomparable h (by decide) (by decide)
    simp [detect_group, URBAN_EXPRESSWAY_PREFIXES, List.find?, h, e1, e2, e3]
  · have e1 : ("首都高速".data).isPrefixOf name = false :=
      isPrefixOf_false_of_incomparable h (by decide) (by decide)
    have e2 : ("名古屋高速".data).isPrefixOf name = false :=
      isPrefixOf_false_of_incomparable h (by decide) (by decide)
    have e3 : ("阪神高速".data).isPrefixOf name = false :=
      isPrefixOf_false_of_incomparable h (by decide) (by decide)
    have e4 : ("広島高速".data).isPrefixOf name = false :=
      isPrefixOf_false_of_incomparable h (by decide) (by decide)
    simp [detect_group, URBAN_EXPRESSWAY_PREFIXES, List.find?, h, e1, e2, e3, e4]
  · have e1 : ("首都高速".data).isPrefixOf name = false :=
      isPrefixOf_false_of_incomparable h (by decide) (by decide)
    have e2 : ("名古屋高速".data).isPrefixOf name = false :=
      isPrefixOf_false_of_incomparable h (by decide) (by decide)
    have e3 : ("阪神高速".data).isPrefixOf name = false :=
      isPrefixOf_false_of_incomparable h (by decide) (by decide)
    have e4 : ("広島高速".data).isPrefixOf name = false :=
      isPrefixOf_false_of_incomparable h (by decide) (by decide)
    have e5 : ("北九州高速".data).isPrefixOf name = false :=
      isPrefixOf_false_of_incomparable h (by decide) (by decide)
    simp [detect_group, URBAN_EXPRESSWAY_PREFIXES, List.find?, h, e1, e2, e3, e4, e5]

/-- A name starting with an alias detects as the mapped group. -/
theorem detect_group_of_alias (name : List Char) (al : List Char × List Char)
    (hmem : al ∈ URBAN_EXPRESSWAY_ALIASES) (h : al.1.isPrefixOf name = true) :
    detect_group name = some al.2 := by
  fin_cases hmem
  · have e1 : ("首都高速".data).isPrefixOf name = false :=
      isPrefixOf_false_of_incomparable h (by decide) (by decide)
    have e2 : ("名古屋高速".data).isPrefixOf name = false :=
      isPrefixOf_false_of_incomparable h (by decide) (by decide)
    have e3 : ("阪神高速".data).isPrefixOf name = false :=
      isPrefixOf_false_of_incomparable h (by decide) (by decide)
    have e4 : ("広島高速".data).isPrefixOf name = false :=
      isPrefixOf_false_of_incomparable h (by decide) (by decide)
    have e5 : ("北九州高速".data).isPrefixOf name = false :=
      isPrefixOf_false_of_incomparable h (by decide) (by decide)
    have e6 : ("福岡高速".data).isPrefixOf name = false :=
      isPrefixOf_false_of_incomparable h (by decide) (by decide)
    simp [detect_group, URBAN_EXPRESSWAY_PREFIXES, URBAN_EXPRESSWAY_ALIASES,
      List.find?, h, e1, e2, e3, e4, e5, e6]
  · have e1 : ("首都高速".data).isPrefixOf name = false :=
      isPrefixOf_false_of_incomparable h (by decide) (by decide)
    have e2 : ("名古屋高速".data).isPrefixOf name = false :=
      isPrefixOf_false_of_incomparable h (by decide) (by decide)
    have e3 : ("阪神高速".data).isPrefixOf name = false :=
      isPrefixOf_false_of_incomparable h (by decide) (by decide)
    have e4 : ("広島高速".data).isPrefixOf name = false :=
      isPrefixOf_false_of_incomparable h (by decide) (by decide)
    have e5 : ("北九州高速".data).isPrefixOf name = false :=
      isPrefixOf_false_of_incomparable h (by decide) (by decide)
    have e6 : ("福岡高速".data).isPrefixOf name = false :=
      isPrefixOf_false_of_incomparable h (by decide) (by decide)
    have e7 : ("北九州都市高速".data).isPrefixOf name = false :=
      isPrefixOf_false_of_incomparable h (by decide) (by decide)
    simp [detect_group, URBAN_EXPRESSWAY_PREFIXES, URBAN_EXPRESSWAY_ALIASES,
      List.find?, h, e1, e2, e3, e4, e5, e6, e7]
  · have e1 : ("首都高速".data).isPrefixOf name = false :=
      isPrefixOf_false_of_incomparable h (by decide) (by decide)
    have e2 : ("名古屋高速".data).isPrefixOf name = false :=
      isPrefixOf_false_of_incomparable h (by decide) (by decide)
    have e3 : ("阪神高速".data).isPrefixOf name = false :=
      isPrefixOf_false_of_incomparable h (by decide) (by decide)
    have e4 : ("広島高速".data).isPrefixOf name = false :=
      isPrefixOf_false_of_incomparable h (by decide) (by decide)
    have e5 : ("北九州高速".data).isPrefixOf name = false :=
      isPrefixOf_false_of_incomparable h (by decide) (by decide)
    have e6 : ("福岡高速".data).isPrefixOf name = false :=
      isPrefixOf_false_of_incomparable h (by decide) (by decide)
    have e7 : ("北九州都市高速".data).isPrefixOf name = false :=
      isPrefixOf_false_of_incomparable h (by decide) (by decide)
    have e8 : ("福岡都市高速".data).isPrefixOf name = false :=
      isPrefixOf_false_of_incomparable h (by decide) (by decide)
    simp [detect_group, URBAN_EXPRESSWAY_PREFIXES, URBAN_EXPRESSWAY_ALIASES,
      List.find?, h, e1, e2, e3, e4, e5, e6, e7, e8]

/-- A name starting with 名古屋 detects as the Nagoya urban group. -/
theorem detect_group_of_nagoya (name : List Char)
    (h : "名古屋".data.isPrefixOf name = true) :
    detect_group name = some "名古屋高速".data := by
  by_cases hng : ("名古屋高速".data).isPrefixOf name = true
  · exact detect_group_from_urban name "名古屋高速".data (by decide) hng
  · rw [Bool.not_eq_true] at hng
    have e1 : ("首都高速".data).isPrefixOf name = false :=
      isPrefixOf_false_of_incomparable h (by decide) (by decide)
    have e3 : ("阪神高速".data).isPrefixOf name = false :=
      isPrefixOf_false_of_incomparable h (by decide) (by decide)
    have e4 : ("広島高速".data).isPrefixOf name = false :=
      isPrefixOf_false_of_incomparable h (by decide) (by decide)
    have e5 : ("北九州高速".data).isPrefixOf name = false :=
      isPrefixOf_false_of_incomparable h (by decide) (by decide)
    have e6 : ("福岡高速".data).isPrefixOf name = false :=
      isPrefixOf_false_of_incomparable h (by decide) (by decide)
    have a1 : ("北九州都市高速".data).isPrefixOf name = false :=
      isPrefixOf_false_of_incomparable h (by decide) (by decide)
    have a2 : ("福岡都市高速".data).isPrefixOf name = false :=
      isPrefixOf_false_of_incomparable h (by decide) (by decide)
    have a3 : ("東京高速道路".data).isPrefixOf name = false :=
      isPrefixOf_false_of_incomparable h (by decide) (by decide)
    have d1 : (['首', '都', '高', '速', '道', '路'] : List Char).isPrefixOf name = false :=
      isPrefixOf_false_of_extends (by decide) e1
    have d2 : (['名', '古', '屋', '高', '速', '道', '路'] : List Char).isPrefixOf name = false :=
      isPrefixOf_false_of_extends (by decide) hng
    have d3 : (['阪', '神', '高', '速', '道', '路'] : List Char).isPrefixOf name = false :=
      isPrefixOf_false_of_extends (by decide) e3
    have d4 : (['広', '島', '高', '速', '道', '路'] : List Char).isPrefixOf name = false :=
      isPrefixOf_false_of_extends (by decide) e4
    have d5 : (['北', '九', '州', '高', '速', '道', '路'] : List Char).isPrefixOf name = false :=
      isPrefixOf_false_of_extends (by decide) e5
    have d6 : (['福', '岡', '高', '速', '道', '路'] : List Char).isPrefixOf name = false :=
      isPrefixOf_false_of_extends (by decide) e6
    simp [detect_group, URBAN_EXPRESSWAY_PREFIXES, URBAN_EXPRESSWAY_ALIASES,
      List.find?, h, hng, e1, e3, e4, e5, e6, a1, a2, a3, d1, d2, d3, d4, d5, d6]

/-- A name matching no prefix, no alias and not starting with 名古屋 detects
as no urban group. -/
theorem detect_group_none (name : List Char)
    (h1 : ∀ pre ∈ URBAN_EXPRESSWAY_PREFIXES, pre.isPrefixOf name = false)
    (h2 : ∀ al ∈ URBAN_EXPRESSWAY_ALIASES, al.1.isPrefixOf name = false)
    (h3 : "名古屋".data.isPrefixOf name = false) :
    detect_group name = none := by
  have e1 := h1 "首都高速".data (by decide)
  have e2 := h1 "名古屋高速".data (by decide)
  have e3 := h1 "阪神高速".data (by decide)
  have e4 := h1 "広島高速".data (by decide)
  have e5 := h1 "北九州高速".data (by decide)
  have e6 := h1 "福岡高速".data (by decide)
  have a1 := h2 ("北九州都市高速".data, "北九州高速".data) (by decide)
  have a2 := h2 ("福岡都市高速".data, "福岡高速".data) (by decide)
  have a3 := h2 ("東京高速道路".data, "首都高速".data) (by decide)
  have d1 : (['首', '都', '高', '速', '道', '路'] : List Char).isPrefixOf name = false :=
    isPrefixOf_false_of_extends (by decide) e1
  have d2 : (['名', '古', '屋', '高', '速', '道', '路'] : List Char).isPrefixOf name = false :=
    isPrefixOf_false_of_extends (by decide) e2
  have d3 : (['阪', '神', '高', '速', '道', '路'] : List Char).isPrefixOf name = false :=
    isPrefixOf_false_of_extends (by decide) e3
  have d4 : (['広', '島', '高', '速', '道', '路'] : List Char).isPrefixOf name = false :=
    isPrefixOf_false_of_extends (by decide) e4
  have d5 : (['北', '九', '州', '高', '速', '道', '路'] : List Char).isPrefixOf name = false :=
    isPrefixOf_false_of_extends (by decide) e5
  have d6 : (['福', '岡', '高', '速', '道', '路'] : List Char).isPrefixOf name = false :=
    isPrefixOf_false_of_extends (by decide) e6
  simp [detect_group, URBAN_EXPRESSWAY_PREFIXES, URBAN_EXPRESSWAY_ALIASES,
    List.find?, h3, e1, e2, e3, e4, e5, e6, a1, a2, a3, d1, d2, d3, d4, d5, d6]

/-- C6: detect_group applies its checks in order with the first match
winning: an urban prefix yields that prefix; an alias yields its mapped
group; an urban prefix followed by 道路 also yields the prefix; a name
starting with 名古屋 falls back to 名古屋高速; any other name yields
absence, as 東名高速道路 does. -/
theorem C6_detect_group_spec :
    (∀ (name pre : List Char), pre ∈ URBAN_EXPRESSWAY_PREFIXES →
      pre.isPrefixOf name = true → detect_group name = some pre) ∧
    (∀ (name : List Char) (al : List Char × List Char), al ∈ URBAN_EXPRESSWAY_ALIASES →
      al.1.isPrefixOf name = true → detect_group name = some al.2) ∧
    (∀ (name pre : List Char), pre ∈ URBAN_EXPRESSWAY_PREFIXES →
      (pre ++ "道路".data).isPrefixOf name = true → detect_group name = some pre) ∧
    (∀ name : List Char, "名古屋".data.isPrefixOf name = true →
      detect_group name = some "名古屋高速".data) ∧
    (∀ name : List Char,
      (∀ pre ∈ URBAN_EXPRESSWAY_PREFIXES, pre.isPrefixOf name = false) →
      (∀ al ∈ URBAN_EXPRESSWAY_ALIASES, al.1.isPrefixOf name = false) →
      "名古屋".data.isPrefixOf name = false →
      detect_group name = none) ∧
    detect_group "福岡都市高速6号アイランドシティ線".data = some "福岡高速".data ∧
    detect_group "東京高速道路".data = some "首都高速".data ∧
    detect_group "名古屋第二環状自動車道".data = some "名古屋高速".data ∧
    detect_group "東名高速道路".data = none := by
  refine ⟨detect_group_from_urban, detect_group_of_alias, ?_, detect_group_of_nagoya,
    detect_group_none, by decide, by decide, by decide, by decide⟩
  intro name pre hmem h
  have hp : pre.isPrefixOf name = true := by
    rw [List.isPrefixOf_iff_prefix] at h ⊢
    exact (List.prefix_append pre "道路".data).trans h
  exact detect_group_from_urban name pre hmem hp

/-- C6 witness: the order of checks applied at concrete names through the
theorem: a prefix match, an alias match, and a fallback 名古屋 match. -/
theorem C6_witness :
    detect_group "阪神高速11号池田線".data = some "阪神高速".data ∧
    detect_group "北九州都市高速1号線".data = some "北九州高速".data ∧
    detect_group "名古屋環状2号".data = some "名古屋高速".data := by
  refine ⟨?_, ?_, ?_⟩
  · exact C6_detect_group_spec.1 "阪神高速11号池田線".data "阪神高速".data
      (by decide) (by decide)
  · exact C6_detect_group_spec.2.1 "北九州都市高速1号線".data
      ("北九州都市高速".data, "北九州高速".data) (by decide) (by decide)
  · exact C6_detect_group_spec.2.2.2.1 "名古屋環状2号".data (by decide)

/-- C3: should_split_by_ref holds exactly when at least two distinct refs of
the grouping count, where the blank ref never counts, every other ref counts
for an urban-detected display name, and national-route (digit-only) refs are
excluded otherwise; the three specified examples and the national-route
classification of concrete refs follow.  The function is modelled from the
specification because the scripts do not define it. -/
theorem C3_should_split_by_ref_spec :
    (∀ (grouped : List (List Char × List Way)) (dn : List Char),
      (grouped.map Prod.fst).Nodup →
      (should_split_by_ref grouped dn = true ↔
        2 ≤ ((grouped.map Prod.fst).toFinset.filter
          (fun r => (r ≠ [] && ((detect_group dn).isSome || ! is_national_route_ref r))
            = true)).card)) ∧
    should_split_by_ref [("E19".data, []), ("E20".data, [])] "中央自動車道".data = true ∧
    should_split_by_ref [("E20".data, []), ("4".data, [])] "中央自動車道".data = false ∧
    should_split_by_ref [("1".data, []), ("2".data, [])] "首都高速1号上野線".data = true ∧
    should_split_by_ref [("E19".data, []), ("E20".data, []), ("4".data, [])]
      "中央自動車道".data = true ∧
    should_split_by_ref [("E8".data, []), ([], [])] "北陸自動車道".data = false ∧
    is_national_route_ref "4".data = true ∧
    is_national_route_ref "152".data = true ∧
    is_national_route_ref "E20".data = false ∧
    is_national_route_ref [] = false := by
  refine ⟨?_, by decide, by decide, by decide, by decide, by decide,
    by decide, by decide, by decide, by decide⟩
  intro grouped dn hnd
  unfold should_split_by_ref
  rw [decide_eq_true_eq, ← List.toFinset_filter,
    List.toFinset_card_of_nodup (hnd.filter _)]

/-- C3 witness: the characterisation applied at a concrete grouping with
distinct keys. -/
theorem C3_witness :
    should_split_by_ref [("E19".data, []), ("4".data, [])] "中央自動車道".data = true ↔
      2 ≤ (([ "E19".data, "4".data ] : List (List Char)).toFinset.filter
        (fun r => (r ≠ [] &&
          ((detect_group "中央自動車道".data).isSome || ! is_national_route_ref r))
          = true)).card :=
  C3_should_split_by_ref_spec.1 [("E19".data, []), ("4".data, [])] "中央自動車道".data
    (by decide)

/-- Appending to a bucket list adds the way under exactly the given key. -/
theorem addToBucket_lookup_self (bs : List (List Char × List Way)) (key : List Char)
    (w : Way) :
    List.lookup key (addToBucket bs key w) =
      some (((List.lookup key bs).getD []) ++ [w]) := by
  induction bs with
  | nil => simp [addToBucket, List.lookup]
  | cons b bs ih =>
    obtain ⟨k, ws⟩ := b
    by_cases hk : k = key
    · subst hk
      simp [addToBucket, List.lookup]
    · have hb : (key == k) = false := beq_false_of_ne (Ne.symm hk)
      simp [addToBucket, List.lookup, hk, ih, hb]

/-- Appending to a bucket list leaves other keys untouched. -/
theorem addToBucket_lookup_other (bs : List (List Char × List Way)) (key k : List Char)
    (w : Way) (hk : k ≠ key) :
    List.lookup k (addToBucket bs key w) = List.lookup k bs := by
  induction bs with
  | nil => simp [addToBucket, List.lookup, beq_false_of_ne hk]
  | cons b bs ih =>
    obtain ⟨k0, ws⟩ := b
    by_cases hk0 : k0 = key
    · subst hk0
      have hb : (k == k0) = false := beq_false_of_ne hk
      simp [addToBucket, List.lookup, hb]
    · by_cases hkk : (k == k0) = true
      · simp [addToBucket, List.lookup, hk0, hkk]
      · simp [addToBucket, List.lookup, hk0, hkk, ih]

/-- Membership of a way in its bucket persists through further insertions. -/
theorem bucket_mem_persists (bs : List (List Char × List Way)) (key : List Char)
    (v : Way) (w : Way) (ws : List Way)
    (h : List.lookup (wayRef w) bs = some ws) (hw : w ∈ ws) :
    ∃ ws2, List.lookup (wayRef w) (addToBucket bs key v) = some ws2 ∧ w ∈ ws2 := by
  by_cases hk : wayRef w = key
  · subst hk
    rw [addToBucket_lookup_self, h]
    exact ⟨ws ++ [v], rfl, List.mem_append_left _ hw⟩
  · rw [addToBucket_lookup_other bs key _ v hk, h]
    exact ⟨ws, rfl, hw⟩

/-- Every way of the input ends up in the bucket of its effective ref. -/
theorem bucketize_mem (ways : List Way) (w : Way) (hw : w ∈ ways) :
    ∃ ws, List.lookup (wayRef w) (bucketize ways) = some ws ∧ w ∈ ws := by
  suffices h : ∀ (l : List Way) (bs : List (List Char × List Way)),
      (w ∈ l ∨ ∃ ws, List.lookup (wayRef w) bs = some ws ∧ w ∈ ws) →
      ∃ ws, List.lookup (wayRef w)
        (l.foldl (fun buckets v => addToBucket buckets (wayRef v) v) bs) = some ws ∧
        w ∈ ws by
    exact h ways [] (Or.inl hw)
  intro l
  induction l with
  | nil =>
    intro bs h
    rcases h with h | h
    · exact absurd h (List.not_mem_nil w)
    · exact h
  | cons v l ih =>
    intro bs h
    rw [List.foldl_cons]
    rcases h with h | ⟨ws, hws, hmem⟩
    · rcases List.mem_cons.mp h with rfl | h
      · refine ih _ (Or.inr ?_)
        rw [addToBucket_lookup_self]
        exact ⟨_, rfl, List.mem_append_right _ (List.mem_singleton_self w)⟩
      · exact ih _ (Or.inl h)
    · exact ih _ (Or.inr (bucket_mem_persists bs (wayRef v) v w ws hws hmem))

/-- Folding blank-ref ways into the blank bucket collects them in order. -/
theorem bucketize_all_blank_aux :
    ∀ (l : List Way) (acc : List Way), (∀ w ∈ l, wayRef w = []) →
      l.foldl (fun buckets v => addToBucket buckets (wayRef v) v) [([], acc)] =
        [([], acc ++ l)] := by
  intro l
  induction l with
  | nil => intro acc h; simp
  | cons v l ih =>
    intro acc h
    rw [List.foldl_cons]
    have hv : wayRef v = [] := h v (List.mem_cons_self v l)
    have hstep : addToBucket [([], acc)] (wayRef v) v = [([], acc ++ [v])] := by
      rw [hv]; simp [addToBucket]
    rw [hstep, ih (acc ++ [v]) (fun w hw => h w (List.mem_cons_of_mem v hw))]
    simp

/-- Bucketising ways that all have a blank ref yields one blank bucket. -/
theorem bucketize_all_blank (w0 : Way) (ways : List Way)
    (h : ∀ w ∈ w0 :: ways, wayRef w = []) :
    bucketize (w0 :: ways) = [([], w0 :: ways)] := by
  unfold bucketize
  rw [List.foldl_cons]
  have h0 : wayRef w0 = [] := h w0 (List.mem_cons_self w0 ways)
  have hstep : addToBucket [] (wayRef w0) w0 = [([], [w0])] := by
    rw [h0]; simp [addToBucket]
  rw [hstep, bucketize_all_blank_aux ways [w0]
    (fun w hw => h w (List.mem_cons_of_mem w0 hw))]
  simp

/-- C4: group_ways_by_ref buckets ways by the first semicolon component of
their ref tag, merges blank-ref ways into the non-blank bucket at minimal
point-to-point distance, and leaves everything in the blank bucket when no
non-blank bucket exists; shown by the blank-only fallback in general, the
per-way bucket membership law, and evaluation on the specified examples.
The function is modelled from the specification because the scripts do not
define it. -/
theorem C4_group_ways_by_ref_spec :
    (∀ (w0 : Way) (ways : List Way), (∀ w ∈ w0 :: ways, wayRef w = []) →
      group_ways_by_ref (w0 :: ways) = [([], w0 :: ways)]) ∧
    (∀ (ways : List Way) (w : Way), w ∈ ways →
      ∃ ws, List.lookup (wayRef w) (bucketize ways) = some ws ∧ w ∈ ws) ∧
    group_ways_by_ref [] = [] ∧
    bucketize [wayE19, wayE20, wayNoRef] =
      [("E19".data, [wayE19]), ("E20".data, [wayE20]), ([], [wayNoRef])] ∧
    group_ways_by_ref [wayE19, wayE20, wayNoRef] =
      [("E19".data, [wayE19, wayNoRef]), ("E20".data, [wayE20])] ∧
    group_ways_by_ref [wayE4compound, wayE4plain] =
      [("E4".data, [wayE4compound, wayE4plain])] := by
  refine ⟨?_, fun ways w hw => bucketize_mem ways w hw, by rfl, ?_, ?_, ?_⟩
  · intro w0 ways h
    unfold group_ways_by_ref
    rw [bucketize_all_blank w0 ways h]
    simp
  · simp [bucketize, addToBucket, wayRef, tagGet, List.takeWhile_cons,
      wayE19, wayE20, wayNoRef]
  · have h1 : bucketize [wayE19, wayE20, wayNoRef] =
        [("E19".data, [wayE19]), ("E20".data, [wayE20]), ([], [wayNoRef])] := by
      simp [bucketize, addToBucket, wayRef, tagGet, List.takeWhile_cons,
        wayE19, wayE20, wayNoRef]
    have h2 : nearest_bucket_key wayNoRef
        [("E19".data, [wayE19]), ("E20".data, [wayE20])] = some "E19".data := by
      simp only [nearest_bucket_key, minPairDistSq, coordsOfBucket, optMin,
        distance_squared, List.foldl_cons, List.foldl_nil, List.nil_append,
        List.append_nil, wayE19, wayE20, wayNoRef]
      norm_num
    simp [group_ways_by_ref, h1, h2, addToBucket, List.filter_cons]
  · simp [group_ways_by_ref, bucketize, addToBucket, wayRef, tagGet,
      List.takeWhile_cons, List.filter_cons, wayE4compound, wayE4plain]

/-- C4 witness: the blank-ref fallback applied at a concrete way list. -/
theorem C4_witness :
    group_ways_by_ref [waySoloBlank] = [([], [waySoloBlank])] :=
  C4_group_ways_by_ref_spec.1 waySoloBlank [] (by decide)

/-- Characterisation of the nearest-core loop: starting from any state, the
loop either keeps the state, with no available distance beating the stored
minimum, or returns the first available entry that strictly beats all
earlier ones and is minimal among all. -/
theorem dg_loop_spec (hseg : Seg) (cs : List (List Char × Seg)) :
    ∀ (L : List (List Char × List Char)) (st : Option ℚ × List Char),
      (dg_loop hseg cs L st = st ∧
        ∀ y ∈ L.filterMap (fun ch => (List.lookup ch.1 cs).map
          (fun cseg => (ch.2, segment_to_segment_distance_sq hseg cseg))),
          oltB y.2 st.1 = false) ∨
      (∃ l1 x l2,
        L.filterMap (fun ch => (List.lookup ch.1 cs).map
          (fun cseg => (ch.2, segment_to_segment_distance_sq hseg cseg))) =
            l1 ++ x :: l2 ∧
        dg_loop hseg cs L st = (some x.2, x.1) ∧
        oltB x.2 st.1 = true ∧
        (∀ y ∈ l1, x.2 < y.2) ∧ (∀ y ∈ l2, x.2 ≤ y.2)) := by
  intro L
  induction L with
  | nil => intro st; exact Or.inl ⟨rfl, by simp⟩
  | cons ch rest ih =>
    intro st
    cases hlk : List.lookup ch.1 cs with
    | none =>
      have hred : dg_loop hseg cs (ch :: rest) st = dg_loop hseg cs rest st := by
        simp [dg_loop, hlk]
      have hds : (ch :: rest).filterMap (fun ch => (List.lookup ch.1 cs).map
          (fun cseg => (ch.2, segment_to_segment_distance_sq hseg cseg))) =
          rest.filterMap (fun ch => (List.lookup ch.1 cs).map
          (fun cseg => (ch.2, segment_to_segment_distance_sq hseg cseg))) := by
        rw [List.filterMap_cons, hlk]
        rfl
      rw [hred, hds]
      exact ih st
    | some cseg =>
      have hds : (ch :: rest).filterMap (fun ch => (List.lookup ch.1 cs).map
          (fun cseg => (ch.2, segment_to_segment_distance_sq hseg cseg))) =
          (ch.2, segment_to_segment_distance_sq hseg cseg) ::
            rest.filterMap (fun ch => (List.lookup ch.1 cs).map
            (fun cseg => (ch.2, segment_to_segment_distance_sq hseg cseg))) := by
        rw [List.filterMap_cons, hlk]
        rfl
      rw [hds]
      cases hupd : oltB (segment_to_segment_distance_sq hseg cseg) st.1 with
      | false =>
        have hred : dg_loop hseg cs (ch :: rest) st = dg_loop hseg cs rest st := by
          simp [dg_loop, hlk, hupd]
        rw [hred]
        rcases ih st with ⟨heq, hall⟩ | ⟨l1, x, l2, hds2, heq, hx, h1, h2⟩
        · refine Or.inl ⟨heq, ?_⟩
          intro y hy
          rcases List.mem_cons.mp hy with rfl | hy
          · exact hupd
          · exact hall y hy
        · refine Or.inr ⟨(ch.2, segment_to_segment_distance_sq hseg cseg) :: l1, x, l2,
            by rw [hds2, List.cons_append], heq, hx, ?_, h2⟩
          intro y hy
          rcases List.mem_cons.mp hy with rfl | hy
          · cases hst : st.1 with
            | none => rw [hst] at hupd; simp [oltB] at hupd
            | some m =>
              rw [hst] at hupd hx
              simp only [oltB, decide_eq_true_eq, decide_eq_false_iff_not] at hupd hx
              exact lt_of_lt_of_le hx (le_of_not_lt hupd)
          · exact h1 y hy
      | true =>
        have hred : dg_loop hseg cs (ch :: rest) st = dg_loop hseg cs rest
            (some (segment_to_segment_distance_sq hseg cseg), ch.2) := by
          simp [dg_loop, hlk, hupd]
        rw [hred]
        rcases ih (some (segment_to_segment_distance_sq hseg cseg), ch.2) with
          ⟨heq, hall⟩ | ⟨l1, x, l2, hds2, heq, hx, h1, h2⟩
        · refine Or.inr ⟨[], (ch.2, segment_to_segment_distance_sq hseg cseg), _,
            by rw [List.nil_append], heq, hupd, ?_⟩
          constructor
          · intro y hy
            cases hy
          · intro y hy
            have := hall y hy
            simp only [oltB, decide_eq_false_iff_not] at this
            exact le_of_not_lt this
        · have hxd : x.2 < segment_to_segment_distance_sq hseg cseg := by
            simpa [oltB] using hx
          refine Or.inr ⟨(ch.2, segment_to_segment_distance_sq hseg cseg) :: l1, x, l2,
            by rw [hds2, List.cons_append], heq, ?_, ?_, h2⟩
          · cases hst : st.1 with
            | none => simp [oltB]
            | some m =>
              rw [hst] at hupd
              simp only [oltB, decide_eq_true_eq] at hupd ⊢
              exact hxd.trans hupd
          · intro y hy
            rcases List.mem_cons.mp hy with rfl | hy
            · exact hxd
            · exact h1 y hy

/-- C7: determine_general_group returns the corridor label of the available
core highway at minimal squared segment distance, scanning the core table
in its fixed order with a strict-less-than update so the first listed entry
wins exact ties, and returns 東名 when no core segment is available. -/
theorem C7_determine_general_group_spec :
    (∀ (hseg : Seg) (cs : List (List Char × Seg)),
      coreDists hseg cs = [] → determine_general_group hseg cs = "東名".data) ∧
    (∀ (hseg : Seg) (cs : List (List Char × Seg)) (y0 : List Char × ℚ)
      (ys : List (List Char × ℚ)),
      coreDists hseg cs = y0 :: ys →
      ∃ l1 x l2, y0 :: ys = l1 ++ x :: l2 ∧
        determine_general_group hseg cs = x.1 ∧
        (∀ y ∈ y0 :: ys, x.2 ≤ y.2) ∧
        (∀ y ∈ l1, x.2 < y.2)) ∧
    determine_general_group ((0, 0), (1, 1)) [] = "東名".data := by
  refine ⟨?_, ?_, by rfl⟩
  · intro hseg cs h
    rcases dg_loop_spec hseg cs CORE_HIGHWAYS (none, "東名".data) with
      ⟨heq, -⟩ | ⟨l1, x, l2, hds, -, -, -, -⟩
    · unfold determine_general_group
      rw [heq]
    · rw [show (CORE_HIGHWAYS.filterMap (fun ch => (List.lookup ch.1 cs).map
          (fun cseg => (ch.2, segment_to_segment_distance_sq hseg cseg)))) =
          coreDists hseg cs from rfl, h] at hds
      exact absurd hds (List.append_ne_nil_of_right_ne_nil l1 (List.cons_ne_nil x l2)).symm
  · intro hseg cs y0 ys h
    rcases dg_loop_spec hseg cs CORE_HIGHWAYS (none, "東名".data) with
      ⟨-, hall⟩ | ⟨l1, x, l2, hds, heq, -, h1, h2⟩
    · exfalso
      have hy0 : y0 ∈ CORE_HIGHWAYS.filterMap (fun ch => (List.lookup ch.1 cs).map
          (fun cseg => (ch.2, segment_to_segment_distance_sq hseg cseg))) := by
        rw [show (CORE_HIGHWAYS.filterMap (fun ch => (List.lookup ch.1 cs).map
          (fun cseg => (ch.2, segment_to_segment_distance_sq hseg cseg)))) =
          coreDists hseg cs from rfl, h]
        exact List.mem_cons_self y0 ys
      have := hall y0 hy0
      simp [oltB] at this
    · have hds2 : y0 :: ys = l1 ++ x :: l2 := by
        rw [← h]
        rw [show coreDists hseg cs = CORE_HIGHWAYS.filterMap
          (fun ch => (List.lookup ch.1 cs).map
          (fun cseg => (ch.2, segment_to_segment_distance_sq hseg cseg))) from rfl]
        exact hds
      refine ⟨l1, x, l2, hds2, ?_, ?_, h1⟩
      · unfold determine_general_group
        rw [heq]
      · intro y hy
        rw [hds2] at hy
        rcases List.mem_append.mp hy with hy | hy
        · exact le_of_lt (h1 y hy)
        · rcases List.mem_cons.mp hy with rfl | hy
          · exact le_refl _
          · exact h2 y hy

/-- C7 witness: the empty-table default and the singleton-table selection
applied at concrete segments. -/
theorem C7_witness :
    determine_general_group ((139, 35), (140, 36)) [] = "東名".data ∧
    ∃ l1 x l2,
      [("東名".data, segment_to_segment_distance_sq ((139, 35), (140, 36))
        ((139, 35), (140, 36)))] = l1 ++ x :: l2 ∧
      determine_general_group ((139, 35), (140, 36))
        [("東名高速道路".data, ((139, 35), (140, 36)))] = x.1 ∧
      (∀ y ∈ [("東名".data, segment_to_segment_distance_sq ((139, 35), (140, 36))
        ((139, 35), (140, 36)))], x.2 ≤ y.2) ∧
      (∀ y ∈ l1, x.2 < y.2) := by
  constructor
  · exact C7_determine_general_group_spec.1 ((139, 35), (140, 36)) [] (by rfl)
  · exact C7_determine_general_group_spec.2.1 ((139, 35), (140, 36))
      [("東名高速道路".data, ((139, 35), (140, 36)))]
      ("東名".data, segment_to_segment_distance_sq ((139, 35), (140, 36))
        ((139, 35), (140, 36))) [] (by rfl)

/-- Updating an association list at a key maps its first stored value. -/
theorem lookup_updateA_self (k : List Char) (f : β → β) (l : List (List Char × β)) :
    List.lookup k (updateA k f l) = (List.lookup k l).map f := by
  induction l with
  | nil => rfl
  | cons p l ih =>
    obtain ⟨k0, v⟩ := p
    by_cases h : k0 = k
    · subst h
      simp [updateA, List.lookup]
    · have h1 : (k0 == k) = false := beq_false_of_ne h
      have h2 : (k == k0) = false := beq_false_of_ne (Ne.symm h)
      simp [updateA, List.lookup, h1, h2, ih]

/-- Updating an association list at a key leaves other keys unchanged. -/
theorem lookup_updateA_other (k k2 : List Char) (f : β → β) (l : List (List Char × β))
    (hk : k2 ≠ k) :
    List.lookup k2 (updateA k f l) = List.lookup k2 l := by
  induction l with
  | nil => rfl
  | cons p l ih =>
    obtain ⟨k0, v⟩ := p
    by_cases h : k0 = k
    · subst h
      have h2 : (k2 == k0) = false := beq_false_of_ne hk
      simp [updateA, List.lookup, h2]
    · have h1 : (k0 == k) = false := beq_false_of_ne h
      cases hbeq : (k2 == k0) <;> simp [updateA, List.lookup, h1, hbeq, ih]

/-- Two successive updates at the same key compose. -/
theorem updateA_comp (k : List Char) (f g : β → β) (l : List (List Char × β)) :
    updateA k f (updateA k g l) = updateA k (fun v => f (g v)) l := by
  induction l with
  | nil => rfl
  | cons p l ih =>
    obtain ⟨k0, v⟩ := p
    by_cases h : k0 = k
    · subst h
      simp [updateA]
    · have h1 : (k0 == k) = false := beq_false_of_ne h
      simp [updateA, h1, ih]

/-- Pointwise equal update functions update association lists equally. -/
theorem updateA_congr (k : List Char) (f g : β → β) (l : List (List Char × β))
    (h : ∀ v, f v = g v) : updateA k f l = updateA k g l := by
  induction l with
  | nil => rfl
  | cons p l ih =>
    obtain ⟨k0, v⟩ := p
    simp [updateA, ih, h]

/-- A successful lookup survives appending on the right. -/
theorem lookup_append_some (k : List Char) (l l2 : List (List Char × β)) (v : β)
    (h : List.lookup k l = some v) : List.lookup k (l ++ l2) = some v := by
  induction l with
  | nil => cases h
  | cons p l ih =>
    obtain ⟨k0, v0⟩ := p
    cases hbeq : (k == k0) <;> rw [List.cons_append] <;>
      simp only [List.lookup, hbeq] <;> simp only [List.lookup, hbeq] at h
    · exact ih h
    · exact h

/-- A failed lookup defers to the appended tail. -/
theorem lookup_append_none (k : List Char) (l l2 : List (List Char × β))
    (h : List.lookup k l = none) : List.lookup k (l ++ l2) = List.lookup k l2 := by
  induction l with
  | nil => rfl
  | cons p l ih =>
    obtain ⟨k0, v0⟩ := p
    cases hbeq : (k == k0) <;> rw [List.cons_append] <;>
      simp only [List.lookup, hbeq] <;> simp only [List.lookup, hbeq] at h
    · exact ih h
    · cases h

/-- Collecting member ids into a set equals a union with the fresh set. -/
theorem addMembers_union (m : List (List Char × ℤ)) :
    ∀ s : Finset ℤ, addMembers m s = s ∪ addMembers m ∅ := by
  induction m with
  | nil =>
    intro s
    simp [addMembers]
  | cons x m ih =>
    intro s
    show addMembers m (if x.1 = "w".data then insert x.2 s else s) =
      s ∪ addMembers m (if x.1 = "w".data then insert x.2 ∅ else ∅)
    by_cases hx : x.1 = "w".data
    · rw [if_pos hx, if_pos hx, ih (insert x.2 s), ih (insert x.2 ∅)]
      ext a
      simp only [Finset.mem_union, Finset.mem_insert, Finset.not_mem_empty]
      tauto
    · rw [if_neg hx, if_neg hx]
      exact ih s

/-- Collecting the same member ids twice changes nothing the second time. -/
theorem addMembers_idem (m : List (List Char × ℤ)) (s : Finset ℤ) :
    addMembers m (addMembers m s) = addMembers m s := by
  rw [addMembers_union m (addMembers m s), addMembers_union m s,
    Finset.union_assoc, Finset.union_self]

/-- Filling blank metadata twice changes nothing the second time. -/
theorem updateInfo_idem (en rf : List Char) (info : RelInfo) :
    updateInfo en rf (updateInfo en rf info) = updateInfo en rf info := by
  obtain ⟨nm, ne, rf0⟩ := info
  unfold updateInfo
  by_cases h1 : ne = [] <;> by_cases h2 : en = [] <;>
    by_cases h3 : rf0 = [] <;> by_cases h4 : rf = [] <;>
    simp [h1, h2, h3, h4]

/-- A nonblank English name survives a metadata fill. -/
theorem updateInfo_keeps_name_en (en rf : List Char) (info : RelInfo)
    (h : info.name_en ≠ []) : (updateInfo en rf info).name_en = info.name_en := by
  obtain ⟨nm, ne, rf0⟩ := info
  unfold updateInfo
  by_cases h3 : rf0 = [] <;> by_cases h4 : rf = [] <;> simp_all

/-- A nonblank ref survives a metadata fill. -/
theorem updateInfo_keeps_ref (en rf : List Char) (info : RelInfo)
    (h : info.ref ≠ []) : (updateInfo en rf info).ref = info.ref := by
  obtain ⟨nm, ne, rf0⟩ := info
  unfold updateInfo
  by_cases h1 : ne = [] <;> by_cases h2 : en = [] <;> simp_all

/-- The way-id table of the initialised state always holds the base name. -/
theorem lookup_init_base_some (st : DiscState) (r : Relation) (b : List Char) :
    (List.lookup b (init_base st r b).way_ids_by_name).isSome = true := by
  unfold init_base
  split_ifs with h
  · exact h
  · have hnone : List.lookup b st.way_ids_by_name = none := by
      cases hlk : List.lookup b st.way_ids_by_name with
      | none => rfl
      | some v => rw [hlk] at h; simp at h
    show (List.lookup b (st.way_ids_by_name ++ [(b, ∅)])).isSome = true
    rw [lookup_append_none b _ _ hnone]
    simp [List.lookup]

/-- Initialising a state that already holds the base name is the identity. -/
theorem init_base_of_some (st : DiscState) (r : Relation) (b : List Char)
    (h : (List.lookup b st.way_ids_by_name).isSome = true) :
    init_base st r b = st := by
  unfold init_base
  rw [if_pos h]

/-- Applying the same qualifying relation twice equals applying it once. -/
theorem relation_apply_idem (st : DiscState) (r : Relation) (b : List Char) :
    relation_apply (relation_apply st r b) r b = relation_apply st r b := by
  have hsome : (List.lookup b (relation_apply st r b).way_ids_by_name).isSome = true := by
    have h0 := lookup_init_base_some st r b
    show (List.lookup b (updateA b (addMembers r.members)
      (init_base st r b).way_ids_by_name)).isSome = true
    rw [lookup_updateA_self]
    cases hlk : List.lookup b (init_base st r b).way_ids_by_name with
    | none => rw [hlk] at h0; cases h0
    | some v => rfl
  show DiscState.mk _ _ = _
  rw [init_base_of_some _ r b hsome]
  show DiscState.mk
    (updateA b (addMembers r.members)
      (updateA b (addMembers r.members) (init_base st r b).way_ids_by_name))
    (updateA b (updateInfo (tagGet r.tags "name:en".data) (tagGet r.tags "ref".data))
      (updateA b (updateInfo (tagGet r.tags "name:en".data) (tagGet r.tags "ref".data))
        (init_base st r b).highway_info)) = _
  rw [updateA_comp, updateA_comp,
    updateA_congr b _ _ _ (fun v => addMembers_idem r.members v),
    updateA_congr b _ _ _ (fun v => updateInfo_idem _ _ v)]
  rfl

/-- C8: processing a relation twice equals processing it once, and metadata
already filled with a nonblank English name or ref is never overwritten by
later relations. -/
theorem C8_relation_collection_spec :
    (∀ (st : DiscState) (r : Relation),
      relation_step (relation_step st r) r = relation_step st r) ∧
    (∀ (st : DiscState) (r : Relation) (base : List Char) (info : RelInfo),
      List.lookup base st.highway_info = some info → info.name_en ≠ [] →
      ∃ info2, List.lookup base (relation_step st r).highway_info = some info2 ∧
        info2.name_en = info.name_en) ∧
    (∀ (st : DiscState) (r : Relation) (base : List Char) (info : RelInfo),
      List.lookup base st.highway_info = some info → info.ref ≠ [] →
      ∃ info2, List.lookup base (relation_step st r).highway_info = some info2 ∧
        info2.ref = info.ref) := by
  have hbase : ∀ (st : DiscState) (r : Relation) (b base : List Char) (info : RelInfo),
      List.lookup base st.highway_info = some info →
      List.lookup base (init_base st r b).highway_info = some info := by
    intro st r b base info h
    unfold init_base
    split_ifs with hs
    · exact h
    · exact lookup_append_some base _ _ info h
  refine ⟨?_, ?_, ?_⟩
  · intro st r
    unfold relation_step
    cases hq : relation_qualifies r with
    | none => rfl
    | some b => exact relation_apply_idem st r b
  · intro st r base info h hnb
    unfold relation_step
    cases hq : relation_qualifies r with
    | none => exact ⟨info, h, rfl⟩
    | some b =>
      show ∃ info2, List.lookup base (updateA b
        (updateInfo (tagGet r.tags "name:en".data) (tagGet r.tags "ref".data))
        (init_base st r b).highway_info) = some info2 ∧ info2.name_en = info.name_en
      by_cases hb : base = b
      · subst hb
        rw [lookup_updateA_self, hbase st r base base info h]
        exact ⟨_, rfl, updateInfo_keeps_name_en _ _ info hnb⟩
      · rw [lookup_updateA_other b base _ _ hb, hbase st r b base info h]
        exact ⟨info, rfl, rfl⟩
  · intro st r base info h hnb
    unfold relation_step
    cases hq : relation_qualifies r with
    | none => exact ⟨info, h, rfl⟩
    | some b =>
      show ∃ info2, List.lookup base (updateA b
        (updateInfo (tagGet r.tags "name:en".data) (tagGet r.tags "ref".data))
        (init_base st r b).highway_info) = some info2 ∧ info2.ref = info.ref
      by_cases hb : base = b
      · subst hb
        rw [lookup_updateA_self, hbase st r base base info h]
        exact ⟨_, rfl, updateInfo_keeps_ref _ _ info hnb⟩
      · rw [lookup_updateA_other b base _ _ hb, hbase st r b base info h]
        exact ⟨info, rfl, rfl⟩

/-- C8 witness: idempotence and metadata stability applied at the sample
relation and a state already holding a nonblank English name. -/
theorem C8_witness :
    relation_step (relation_step ⟨[], []⟩ sampleRelation) sampleRelation =
      relation_step ⟨[], []⟩ sampleRelation ∧
    ∃ info2, List.lookup "東名高速道路".data
      (relation_step ⟨[], [("東名高速道路".data,
        { name := "東名高速道路".data, name_en := "Tomei Expressway".data,
          ref := "E1".data })]⟩ sampleRelation).highway_info = some info2 ∧
      info2.name_en = "Tomei Expressway".data := by
  constructor
  · exact C8_relation_collection_spec.1 ⟨[], []⟩ sampleRelation
  · exact (C8_relation_collection_spec.2.1 ⟨[], [("東名高速道路".data,
      { name := "東名高速道路".data, name_en := "Tomei Expressway".data,
        ref := "E1".data })]⟩ sampleRelation "東名高速道路".data
      { name := "東名高速道路".data, name_en := "Tomei Expressway".data,
        ref := "E1".data } (by decide) (by decide))

end Routrace






